import Mathlib

/-!
Verification model of the ctrl-z backup/restore utility.

The repository ships the public surface (`ctrl_z.Backup`) and a test suite
exercising restore semantics; the orchestration module itself
(`ctrl_z/backup.py`) is not part of the sources.  The definitions below
model that missing module from the specification (restore orchestration,
database restorer, directory restorer), with external collaborators
(configuration resolution, connection registry, the external dump/restore
tool, the filesystem) represented as explicit black-box parameters.
-/

/-- Logical name of one configured database connection (e.g. "default"). -/
abbrev Alias := String

/-- Logical name of one configured directory path (e.g. "MEDIA_ROOT"). -/
abbrev SettingName := String

/-- A filesystem path, kept abstract as a string. -/
abbrev FsPath := String

/-- Abstract state of one database connection: the list of dump files that
have been applied to it, in order.  A fresh/clean connection is `[]`. -/
abbrev DBContents := List FsPath

/-- A directory tree: a map from relative file path to file content.
`none` means the relative path is absent from the tree. -/
abbrev DirTree := FsPath → Option String

/-- The filesystem: maps a directory path to its tree when the directory
exists, otherwise `none`. -/
abbrev FS := FsPath → Option DirTree

/-- The empty directory tree. -/
def emptyTree : DirTree := fun _ => none

/-- One restorable database dump within an archive: source alias plus the
dump file path. -/
structure DatabaseUnit where
  sourceAlias : Alias
  dumpPath : FsPath
deriving DecidableEq

/-- One restorable directory tree within an archive: the setting name it
belongs to plus the archived tree. -/
structure DirectoryUnit where
  setting : SettingName
  sourceTree : DirTree

/-- A resolved snapshot: the database units and directory units physically
present in the archive directory. -/
structure BackupArchive where
  dbUnits : List DatabaseUnit
  dirUnits : List DirectoryUnit

/-- Parsed configuration: archive storage root and the optional
`files.directories` restriction (absence means all known settings). -/
structure Config where
  base_dir : FsPath
  directories : Option (List SettingName)

/-- The restore orchestrator object returned by `prepare_restore`. -/
structure Backup where
  config : Config
  archive_path : FsPath

/-- Error taxonomy: `archiveNotFound` when the requested snapshot path does
not resolve, `restoreFailed` carrying the identities of failed units.  Both
are `BackupError`s. -/
inductive BackupError where
  | archiveNotFound (p : FsPath)
  | restoreFailed (units : List String)
deriving DecidableEq

/-- Black-box external collaborators: the external restore tool's outcome
per (target alias, dump file), the filesystem copy outcome per setting, and
the resolution of a setting name to its currently configured destination
path. -/
structure World where
  dbToolOk : Alias → FsPath → Bool
  dirCopyOk : SettingName → Bool
  dirSettings : SettingName → FsPath

/-- Mutable environment acted on by a restore: per-alias connection state
and the filesystem. -/
structure Env where
  conns : Alias → DBContents
  fs : FS

/-- Arguments of `Backup.restore`. -/
structure RestoreArgs where
  db : Bool
  files : Bool
  skip_db : List Alias
  skip_files : List SettingName
  db_names : List (Alias × Alias)

/-- The archives present on disk, keyed by snapshot path. -/
abbrev ArchiveStore := List (FsPath × BackupArchive)

/-- Modelled from the spec: the Archive Locator of the missing
`ctrl_z.backup` module — resolves a snapshot path to the archive's units,
or `none` when the snapshot directory does not exist. -/
def resolve_archive (store : ArchiveStore) (p : FsPath) : Option BackupArchive :=
  (store.find? (fun e => e.1 == p)).map (·.2)

/-- Modelled from the spec: `Backup.prepare_restore` of the missing
`ctrl_z.backup` module.  Configuration parsing is out of scope (the config
is given already parsed).  Following `test_restore_hard_failure`, the
snapshot path is recorded without checking existence: the missing-archive
failure surfaces when `restore` is called, not here. -/
def prepare_restore (_store : ArchiveStore) (config : Config) (archive_path : FsPath) :
    Except BackupError Backup :=
  .ok ⟨config, archive_path⟩

/-- Modelled from the spec: the Database Restorer effect of the missing
`ctrl_z.backup` module — applying a dump file to the target alias's
connection. -/
def restore_database (conns : Alias → DBContents) (target : Alias) (dump : FsPath) :
    Alias → DBContents :=
  fun a => if a = target then conns a ++ [dump] else conns a

/-- Overlay an archived tree on the pre-existing destination tree: paths
present in the source win, paths absent from the source keep the
destination's content. -/
def mergeTree (src old : DirTree) : DirTree :=
  fun p =>
    match src p with
    | some c => some c
    | none => old p

/-- Modelled from the spec: the Directory Restorer of the missing
`ctrl_z.backup` module — copies the archived tree into the destination
directory, creating it if missing, overwriting files with the same
relative path and leaving other destination files untouched. -/
def restore_directory (fs : FS) (src : DirTree) (dst : FsPath) : FS :=
  fun q => if q = dst then some (mergeTree src ((fs dst).getD emptyTree)) else fs q

/-- Resolve the target alias for a database unit: the `db_names` override
when present, identity otherwise. -/
def dbTarget (dbn : List (Alias × Alias)) (a : Alias) : Alias :=
  match dbn.find? (fun e => e.1 == a) with
  | some e => e.2
  | none => a

/-- Database units selected by one `restore` call: the archive's units
minus the skip list, gated by the `db` master switch. -/
def selectedDbUnits (arch : BackupArchive) (args : RestoreArgs) : List DatabaseUnit :=
  if args.db then
    arch.dbUnits.filter (fun u => decide (u.sourceAlias ∉ args.skip_db))
  else []

/-- Whether a directory setting participates per the configuration's
`files.directories` key (absence means all settings participate). -/
def dirParticipates (cfg : Config) (s : SettingName) : Bool :=
  match cfg.directories with
  | none => true
  | some ds => decide (s ∈ ds)

/-- Directory units selected by one `restore` call: the archive's units
restricted to the configured settings, minus the skip list, gated by the
`files` master switch. -/
def selectedDirUnits (cfg : Config) (arch : BackupArchive) (args : RestoreArgs) :
    List DirectoryUnit :=
  if args.files then
    arch.dirUnits.filter
      (fun u => dirParticipates cfg u.setting && decide (u.setting ∉ args.skip_files))
  else []

/-- Modelled from the spec: the database pass of the missing
`ctrl_z.backup.Backup.restore` — attempt every selected database unit in
order, applying the Database Restorer on success and recording the unit's
identity on failure; failures never abort the remaining units. -/
def runDbUnits (w : World) (dbn : List (Alias × Alias)) :
    Env → List DatabaseUnit → Env × List (Alias × Alias) × List String
  | env, [] => (env, [], [])
  | env, u :: rest =>
    let target := dbTarget dbn u.sourceAlias
    if w.dbToolOk target u.dumpPath then
      let out := runDbUnits w dbn
        { env with conns := restore_database env.conns target u.dumpPath } rest
      (out.1, (u.sourceAlias, target) :: out.2.1, out.2.2)
    else
      let out := runDbUnits w dbn env rest
      (out.1, out.2.1, u.sourceAlias :: out.2.2)

/-- Modelled from the spec: the directory pass of the missing
`ctrl_z.backup.Backup.restore` — attempt every selected directory unit in
order, applying the Directory Restorer on success and recording the unit's
identity on failure; failures never abort the remaining units. -/
def runDirUnits (w : World) :
    Env → List DirectoryUnit → Env × List SettingName × List String
  | env, [] => (env, [], [])
  | env, u :: rest =>
    if w.dirCopyOk u.setting then
      let out := runDirUnits w
        { env with fs := restore_directory env.fs u.sourceTree (w.dirSettings u.setting) } rest
      (out.1, u.setting :: out.2.1, out.2.2)
    else
      let out := runDirUnits w env rest
      (out.1, out.2.1, u.setting :: out.2.2)

/-- What one successful `restore` call reports: the (source, target) pairs
of restored databases and the settings of restored directory trees. -/
structure RestoreReport where
  dbsRestored : List (Alias × Alias)
  dirsRestored : List SettingName
deriving DecidableEq

/-- Modelled from the spec: `Backup.restore` of the missing
`ctrl_z.backup` module.  Resolves the archive (raising `archiveNotFound`
if the snapshot is missing), computes the selection, attempts all selected
units, and — after all units have been attempted — fails with
`restoreFailed` if any unit failed.  The returned environment reflects
every unit that succeeded, whether or not the call as a whole failed. -/
def restore (store : ArchiveStore) (w : World) (b : Backup) (env : Env)
    (args : RestoreArgs) : Env × Except BackupError RestoreReport :=
  match resolve_archive store b.archive_path with
  | none => (env, .error (.archiveNotFound b.archive_path))
  | some arch =>
    let r1 := runDbUnits w args.db_names env (selectedDbUnits arch args)
    let r2 := runDirUnits w r1.1 (selectedDirUnits b.config arch args)
    let failures := r1.2.2 ++ r2.2.2
    if failures.isEmpty then
      (r2.1, .ok ⟨r1.2.1, r2.2.1⟩)
    else
      (r2.1, .error (.restoreFailed failures))

/-- Whether the external tool succeeds on a database unit, at the unit's
resolved target. -/
def dbUnitOk (w : World) (dbn : List (Alias × Alias)) (u : DatabaseUnit) : Bool :=
  w.dbToolOk (dbTarget dbn u.sourceAlias) u.dumpPath

/-- The dump files that a pass over `units` appends to alias `a`'s
connection: dumps of the successful units whose resolved target is `a`. -/
def dumpsFor (w : World) (dbn : List (Alias × Alias)) (units : List DatabaseUnit)
    (a : Alias) : List FsPath :=
  (units.filter (fun u => dbUnitOk w dbn u && decide (dbTarget dbn u.sourceAlias = a))).map
    (·.dumpPath)

/-- The filesystem effect of the directory pass alone: fold the Directory
Restorer over the successful units. -/
def applyDirList (w : World) (fs : FS) : List DirectoryUnit → FS
  | [] => fs
  | u :: rest =>
    applyDirList w
      (if w.dirCopyOk u.setting then
        restore_directory fs u.sourceTree (w.dirSettings u.setting)
      else fs) rest

theorem dumpsFor_cons (w : World) (dbn : List (Alias × Alias)) (u : DatabaseUnit)
    (rest : List DatabaseUnit) (a : Alias) :
    dumpsFor w dbn (u :: rest) a =
      if (dbUnitOk w dbn u && decide (dbTarget dbn u.sourceAlias = a)) then
        u.dumpPath :: dumpsFor w dbn rest a
      else dumpsFor w dbn rest a := by
  by_cases h : (dbUnitOk w dbn u && decide (dbTarget dbn u.sourceAlias = a)) = true
  · simp [dumpsFor, List.filter_cons, h]
  · simp only [Bool.not_eq_true] at h
    simp [dumpsFor, List.filter_cons, h]

theorem runDbUnits_conns (w : World) (dbn : List (Alias × Alias)) :
    ∀ (units : List DatabaseUnit) (env : Env) (a : Alias),
      ((runDbUnits w dbn env units).1).conns a = env.conns a ++ dumpsFor w dbn units a := by
  intro units
  induction units with
  | nil => intro env a; simp [runDbUnits, dumpsFor]
  | cons u rest ih =>
    intro env a
    cases hok : w.dbToolOk (dbTarget dbn u.sourceAlias) u.dumpPath with
    | false => simp [runDbUnits, hok, ih, dumpsFor_cons, dbUnitOk]
    | true =>
      by_cases hta : dbTarget dbn u.sourceAlias = a
      · subst hta
        simp [runDbUnits, hok, ih, dumpsFor_cons, dbUnitOk, restore_database]
      · simp [runDbUnits, hok, ih, dumpsFor_cons, dbUnitOk, hta, restore_database,
          Ne.symm hta]

theorem runDbUnits_fs (w : World) (dbn : List (Alias × Alias)) :
    ∀ (units : List DatabaseUnit) (env : Env),
      ((runDbUnits w dbn env units).1).fs = env.fs := by
  intro units
  induction units with
  | nil => intro env; simp [runDbUnits]
  | cons u rest ih =>
    intro env
    cases hok : w.dbToolOk (dbTarget dbn u.sourceAlias) u.dumpPath <;>
      simp [runDbUnits, hok, ih]

theorem runDbUnits_restored (w : World) (dbn : List (Alias × Alias)) :
    ∀ (units : List DatabaseUnit) (env : Env),
      (runDbUnits w dbn env units).2.1 =
        (units.filter (dbUnitOk w dbn)).map
          (fun u => (u.sourceAlias, dbTarget dbn u.sourceAlias)) := by
  intro units
  induction units with
  | nil => intro env; simp [runDbUnits]
  | cons u rest ih =>
    intro env
    cases hok : w.dbToolOk (dbTarget dbn u.sourceAlias) u.dumpPath <;>
      simp [runDbUnits, hok, ih, List.filter_cons, dbUnitOk]

theorem runDbUnits_failures (w : World) (dbn : List (Alias × Alias)) :
    ∀ (units : List DatabaseUnit) (env : Env),
      (runDbUnits w dbn env units).2.2 =
        (units.filter (fun u => ! dbUnitOk w dbn u)).map (·.sourceAlias) := by
  intro units
  induction units with
  | nil => intro env; simp [runDbUnits]
  | cons u rest ih =>
    intro env
    cases hok : w.dbToolOk (dbTarget dbn u.sourceAlias) u.dumpPath <;>
      simp [runDbUnits, hok, ih, List.filter_cons, dbUnitOk]

theorem runDirUnits_conns (w : World) :
    ∀ (units : List DirectoryUnit) (env : Env),
      ((runDirUnits w env units).1).conns = env.conns := by
  intro units
  induction units with
  | nil => intro env; simp [runDirUnits]
  | cons u rest ih =>
    intro env
    cases hok : w.dirCopyOk u.setting <;> simp [runDirUnits, hok, ih]

theorem runDirUnits_fs (w : World) :
    ∀ (units : List DirectoryUnit) (env : Env),
      ((runDirUnits w env units).1).fs = applyDirList w env.fs units := by
  intro units
  induction units with
  | nil => intro env; simp [runDirUnits, applyDirList]
  | cons u rest ih =>
    intro env
    cases hok : w.dirCopyOk u.setting <;> simp [runDirUnits, applyDirList, hok, ih]

theorem runDirUnits_restored (w : World) :
    ∀ (units : List DirectoryUnit) (env : Env),
      (runDirUnits w env units).2.1 =
        (units.filter (fun u => w.dirCopyOk u.setting)).map (·.setting) := by
  intro units
  induction units with
  | nil => intro env; simp [runDirUnits]
  | cons u rest ih =>
    intro env
    cases hok : w.dirCopyOk u.setting <;>
      simp [runDirUnits, hok, ih, List.filter_cons]

theorem runDirUnits_failures (w : World) :
    ∀ (units : List DirectoryUnit) (env : Env),
      (runDirUnits w env units).2.2 =
        (units.filter (fun u => ! w.dirCopyOk u.setting)).map (·.setting) := by
  intro units
  induction units with
  | nil => intro env; simp [runDirUnits]
  | cons u rest ih =>
    intro env
    cases hok : w.dirCopyOk u.setting <;>
      simp [runDirUnits, hok, ih, List.filter_cons]

theorem restore_directory_ne (fs : FS) (src : DirTree) (dst q : FsPath) (h : q ≠ dst) :
    restore_directory fs src dst q = fs q := by
  simp [restore_directory, h]

theorem restore_directory_dst (fs : FS) (src : DirTree) (dst : FsPath) :
    restore_directory fs src dst dst = some (mergeTree src ((fs dst).getD emptyTree)) := by
  simp [restore_directory]

theorem applyDirList_append (w : World) :
    ∀ (l1 l2 : List DirectoryUnit) (fs : FS),
      applyDirList w fs (l1 ++ l2) = applyDirList w (applyDirList w fs l1) l2 := by
  intro l1
  induction l1 with
  | nil => intro l2 fs; simp [applyDirList]
  | cons u rest ih => intro l2 fs; simp [applyDirList, ih]

theorem applyDirList_untouched (w : World) :
    ∀ (units : List DirectoryUnit) (fs : FS) (p : FsPath),
      (∀ u ∈ units, w.dirSettings u.setting ≠ p) →
      applyDirList w fs units p = fs p := by
  intro units
  induction units with
  | nil => intro fs p _; simp [applyDirList]
  | cons u rest ih =>
    intro fs p h
    have hu : w.dirSettings u.setting ≠ p := h u (List.mem_cons_self u rest)
    have hrest : ∀ v ∈ rest, w.dirSettings v.setting ≠ p :=
      fun v hv => h v (List.mem_cons_of_mem u hv)
    cases hok : w.dirCopyOk u.setting with
    | false => simpa [applyDirList, hok] using ih fs p hrest
    | true =>
      have hih := ih (restore_directory fs u.sourceTree (w.dirSettings u.setting)) p hrest
      simpa [applyDirList, hok, restore_directory_ne _ _ _ _ (Ne.symm hu)] using hih

theorem applyDirList_isSome (w : World) :
    ∀ (units : List DirectoryUnit) (fs : FS) (p : FsPath),
      (fs p).isSome = true → ((applyDirList w fs units) p).isSome = true := by
  intro units
  induction units with
  | nil => intro fs p h; simpa [applyDirList] using h
  | cons u rest ih =>
    intro fs p h
    cases hok : w.dirCopyOk u.setting with
    | false => simpa [applyDirList, hok] using ih fs p h
    | true =>
      have hsome :
          ((restore_directory fs u.sourceTree (w.dirSettings u.setting)) p).isSome = true := by
        by_cases hp : p = w.dirSettings u.setting
        · subst hp; simp [restore_directory]
        · simpa [restore_directory_ne _ _ _ _ hp] using h
      simpa [applyDirList, hok] using ih _ p hsome

theorem applyDirList_mem_isSome (w : World) :
    ∀ (units : List DirectoryUnit) (fs : FS) (u : DirectoryUnit),
      u ∈ units → w.dirCopyOk u.setting = true →
      ((applyDirList w fs units) (w.dirSettings u.setting)).isSome = true := by
  intro units
  induction units with
  | nil => intro fs u hmem; exact absurd hmem (List.not_mem_nil u)
  | cons v rest ih =>
    intro fs u hmem hok
    rcases List.mem_cons.mp hmem with heq | hmem'
    · subst heq
      have hsome :
          ((restore_directory fs u.sourceTree (w.dirSettings u.setting))
            (w.dirSettings u.setting)).isSome = true := by
        simp [restore_directory]
      simpa [applyDirList, hok] using applyDirList_isSome w rest _ _ hsome
    · cases hok2 : w.dirCopyOk v.setting <;>
        simpa [applyDirList, hok2] using ih _ u hmem' hok

theorem applyDirList_writer (w : World) (u : DirectoryUnit)
    (hok : w.dirCopyOk u.setting = true) (l1 l2 : List DirectoryUnit) (fs : FS)
    (h1 : ∀ v ∈ l1, w.dirSettings v.setting ≠ w.dirSettings u.setting)
    (h2 : ∀ v ∈ l2, w.dirSettings v.setting ≠ w.dirSettings u.setting) :
    applyDirList w fs (l1 ++ u :: l2) (w.dirSettings u.setting) =
      some (mergeTree u.sourceTree
        ((fs (w.dirSettings u.setting)).getD emptyTree)) := by
  rw [applyDirList_append]
  have hfs1 : applyDirList w fs l1 (w.dirSettings u.setting) = fs (w.dirSettings u.setting) :=
    applyDirList_untouched w l1 fs _ h1
  have hstep :
      applyDirList w (applyDirList w fs l1) (u :: l2) =
        applyDirList w
          (restore_directory (applyDirList w fs l1) u.sourceTree (w.dirSettings u.setting))
          l2 := by
    simp [applyDirList, hok]
  rw [hstep, applyDirList_untouched w l2 _ _ h2, restore_directory_dst, hfs1]

/-- Identities of the database units that fail in a pass. -/
def dbFailureIds (w : World) (dbn : List (Alias × Alias)) (units : List DatabaseUnit) :
    List String :=
  (units.filter (fun u => ! dbUnitOk w dbn u)).map (·.sourceAlias)

/-- Identities of the directory units that fail in a pass. -/
def dirFailureIds (w : World) (units : List DirectoryUnit) : List String :=
  (units.filter (fun u => ! w.dirCopyOk u.setting)).map (·.setting)

theorem restore_missing (store : ArchiveStore) (w : World) (b : Backup) (env : Env)
    (args : RestoreArgs) (h : resolve_archive store b.archive_path = none) :
    restore store w b env args = (env, .error (.archiveNotFound b.archive_path)) := by
  simp [restore, h]

theorem restore_fst_eq (store : ArchiveStore) (w : World) (b : Backup) (env : Env)
    (args : RestoreArgs) (arch : BackupArchive)
    (h : resolve_archive store b.archive_path = some arch) :
    (restore store w b env args).1 =
      (runDirUnits w (runDbUnits w args.db_names env (selectedDbUnits arch args)).1
        (selectedDirUnits b.config arch args)).1 := by
  simp only [restore, h]
  split <;> rfl

theorem restore_conns_eq (store : ArchiveStore) (w : World) (b : Backup) (env : Env)
    (args : RestoreArgs) (arch : BackupArchive)
    (h : resolve_archive store b.archive_path = some arch) (a : Alias) :
    ((restore store w b env args).1).conns a =
      env.conns a ++ dumpsFor w args.db_names (selectedDbUnits arch args) a := by
  rw [restore_fst_eq store w b env args arch h, runDirUnits_conns, runDbUnits_conns]

theorem restore_fs_eq (store : ArchiveStore) (w : World) (b : Backup) (env : Env)
    (args : RestoreArgs) (arch : BackupArchive)
    (h : resolve_archive store b.archive_path = some arch) :
    ((restore store w b env args).1).fs =
      applyDirList w env.fs (selectedDirUnits b.config arch args) := by
  rw [restore_fst_eq store w b env args arch h, runDirUnits_fs, runDbUnits_fs]

theorem restore_snd_eq (store : ArchiveStore) (w : World) (b : Backup) (env : Env)
    (args : RestoreArgs) (arch : BackupArchive)
    (h : resolve_archive store b.archive_path = some arch) :
    (restore store w b env args).2 =
      if (dbFailureIds w args.db_names (selectedDbUnits arch args) ++
          dirFailureIds w (selectedDirUnits b.config arch args)).isEmpty then
        .ok ⟨((selectedDbUnits arch args).filter (dbUnitOk w args.db_names)).map
              (fun u => (u.sourceAlias, dbTarget args.db_names u.sourceAlias)),
             ((selectedDirUnits b.config arch args).filter
               (fun u => w.dirCopyOk u.setting)).map (·.setting)⟩
      else
        .error (.restoreFailed
          (dbFailureIds w args.db_names (selectedDbUnits arch args) ++
           dirFailureIds w (selectedDirUnits b.config arch args))) := by
  simp only [restore, h, dbFailureIds, dirFailureIds,
    runDbUnits_failures, runDbUnits_restored, runDirUnits_failures, runDirUnits_restored]
  split <;> rfl

theorem dbFailureIds_eq_nil_iff (w : World) (dbn : List (Alias × Alias))
    (units : List DatabaseUnit) :
    dbFailureIds w dbn units = [] ↔ ∀ u ∈ units, dbUnitOk w dbn u = true := by
  simp [dbFailureIds, List.filter_eq_nil_iff]

theorem dirFailureIds_eq_nil_iff (w : World) (units : List DirectoryUnit) :
    dirFailureIds w units = [] ↔ ∀ u ∈ units, w.dirCopyOk u.setting = true := by
  simp [dirFailureIds, List.filter_eq_nil_iff]

theorem restore_isOk_iff (store : ArchiveStore) (w : World) (b : Backup) (env : Env)
    (args : RestoreArgs) (arch : BackupArchive)
    (h : resolve_archive store b.archive_path = some arch) :
    ((restore store w b env args).2.isOk = true) ↔
      ((∀ u ∈ selectedDbUnits arch args, dbUnitOk w args.db_names u = true) ∧
       (∀ u ∈ selectedDirUnits b.config arch args, w.dirCopyOk u.setting = true)) := by
  rw [restore_snd_eq store w b env args arch h]
  by_cases hc : (dbFailureIds w args.db_names (selectedDbUnits arch args) ++
      dirFailureIds w (selectedDirUnits b.config arch args)).isEmpty = true
  · have hnil := List.isEmpty_iff.mp hc
    have := List.append_eq_nil.mp hnil
    simp only [hc, if_true]
    constructor
    · intro _
      exact ⟨(dbFailureIds_eq_nil_iff w args.db_names _).mp this.1,
        (dirFailureIds_eq_nil_iff w _).mp this.2⟩
    · intro _; rfl
  · rw [if_neg hc]
    constructor
    · intro hok; exact Bool.noConfusion (show false = true from hok)
    · intro hall
      exact absurd (List.isEmpty_iff.mpr (List.append_eq_nil.mpr
        ⟨(dbFailureIds_eq_nil_iff w args.db_names _).mpr hall.1,
         (dirFailureIds_eq_nil_iff w _).mpr hall.2⟩)) hc

theorem mergeTree_emptyTree (src : DirTree) : mergeTree src emptyTree = src := by
  funext p
  simp only [mergeTree, emptyTree]
  cases src p <;> rfl

theorem mem_selectedDbUnits (arch : BackupArchive) (args : RestoreArgs) (u : DatabaseUnit)
    (hdb : args.db = true) (hu : u ∈ arch.dbUnits) (hns : u.sourceAlias ∉ args.skip_db) :
    u ∈ selectedDbUnits arch args := by
  simp [selectedDbUnits, hdb, List.mem_filter, hu, hns]

theorem selectedDbUnits_not_skipped (arch : BackupArchive) (args : RestoreArgs)
    (u : DatabaseUnit) (hu : u ∈ selectedDbUnits arch args) :
    u.sourceAlias ∉ args.skip_db := by
  unfold selectedDbUnits at hu
  split at hu
  · exact of_decide_eq_true (List.mem_filter.mp hu).2
  · exact absurd hu (List.not_mem_nil u)

theorem dump_mem_dumpsFor (w : World) (dbn : List (Alias × Alias))
    (units : List DatabaseUnit) (u : DatabaseUnit) (hu : u ∈ units)
    (hok : dbUnitOk w dbn u = true) :
    u.dumpPath ∈ dumpsFor w dbn units (dbTarget dbn u.sourceAlias) := by
  refine List.mem_map.mpr ⟨u, List.mem_filter.mpr ⟨hu, ?_⟩, rfl⟩
  simp [hok]

theorem dumpsFor_eq_nil (w : World) (dbn : List (Alias × Alias))
    (units : List DatabaseUnit) (a : Alias)
    (h : ∀ u ∈ units, dbTarget dbn u.sourceAlias ≠ a) :
    dumpsFor w dbn units a = [] := by
  simp only [dumpsFor, List.map_eq_nil_iff, List.filter_eq_nil_iff]
  intro u hu
  simp [h u hu]

theorem selectedDbUnits_all (arch : BackupArchive) (args : RestoreArgs)
    (hdb : args.db = true) (hskip : args.skip_db = []) :
    selectedDbUnits arch args = arch.dbUnits := by
  simp [selectedDbUnits, hdb, hskip]

theorem selectedDirUnits_all (cfg : Config) (arch : BackupArchive) (args : RestoreArgs)
    (hf : args.files = true) (hskip : args.skip_files = [])
    (hpart : ∀ u ∈ arch.dirUnits, dirParticipates cfg u.setting = true) :
    selectedDirUnits cfg arch args = arch.dirUnits := by
  unfold selectedDirUnits
  rw [if_pos hf]
  refine List.filter_eq_self.mpr ?_
  intro u hu
  simp [hpart u hu, hskip]

/-! Concrete fixtures mirroring the repository's test environment: the
`2018-06-27-daily` snapshot with `default`/`secondary` dumps and
`media`/`private_media` directory bundles. -/

def mediaTree : DirTree := fun p => if p = "1" then some "file1" else none

def privateTree : DirTree := fun p => if p = "2" then some "file2" else none

def archive0 : BackupArchive :=
  ⟨[⟨"default", "default.sql"⟩, ⟨"secondary", "secondary.sql"⟩],
   [⟨"MEDIA_ROOT", mediaTree⟩, ⟨"PRIVATE_MEDIA_ROOT", privateTree⟩]⟩

def store0 : ArchiveStore := [("2018-06-27-daily", archive0)]

def cfg0 : Config := ⟨"backups", none⟩

def cfgPriv : Config := ⟨"backups", some ["PRIVATE_MEDIA_ROOT"]⟩

def world0 : World :=
  ⟨fun _ _ => true, fun _ => true,
   fun s =>
     if s = "MEDIA_ROOT" then "media"
     else if s = "PRIVATE_MEDIA_ROOT" then "private_media"
     else s⟩

def env0 : Env := ⟨fun _ => [], fun _ => none⟩

def backup0 : Backup := ⟨cfg0, "2018-06-27-daily"⟩

def backupPriv : Backup := ⟨cfgPriv, "2018-06-27-daily"⟩

/-- Full-restore arguments: both master switches on, no skips, no renames. -/
def fullArgs (dbn : List (Alias × Alias)) : RestoreArgs := ⟨true, true, [], [], dbn⟩

/-- Claim C1: for every archive with N database units and M directory units,
`restore(db=True, files=True, skip_db=[], skip_files=[])` restores exactly
the N databases and M directory trees of the archive and nothing else
(assuming every configured setting participates and every unit's external
restore succeeds). -/
theorem restore_all_units (store : ArchiveStore) (w : World) (b : Backup) (env : Env)
    (dbn : List (Alias × Alias)) (arch : BackupArchive)
    (h : resolve_archive store b.archive_path = some arch)
    (hpart : ∀ u ∈ arch.dirUnits, dirParticipates b.config u.setting = true)
    (hdbok : ∀ u ∈ arch.dbUnits, dbUnitOk w dbn u = true)
    (hdirok : ∀ u ∈ arch.dirUnits, w.dirCopyOk u.setting = true) :
    (restore store w b env (fullArgs dbn)).2 =
      .ok ⟨arch.dbUnits.map (fun u => (u.sourceAlias, dbTarget dbn u.sourceAlias)),
           arch.dirUnits.map (·.setting)⟩ := by
  have hseldb : selectedDbUnits arch (fullArgs dbn) = arch.dbUnits :=
    selectedDbUnits_all arch _ rfl rfl
  have hseldir : selectedDirUnits b.config arch (fullArgs dbn) = arch.dirUnits :=
    selectedDirUnits_all b.config arch _ rfl rfl hpart
  rw [restore_snd_eq store w b env (fullArgs dbn) arch h, hseldb, hseldir]
  have hfdb : dbFailureIds w (fullArgs dbn).db_names arch.dbUnits = [] :=
    (dbFailureIds_eq_nil_iff w _ _).mpr hdbok
  have hfdir : dirFailureIds w arch.dirUnits = [] :=
    (dirFailureIds_eq_nil_iff w _).mpr hdirok
  rw [hfdb, hfdir]
  simp only [List.nil_append, List.isEmpty_nil, if_true]
  have h1 : arch.dbUnits.filter (dbUnitOk w (fullArgs dbn).db_names) = arch.dbUnits :=
    List.filter_eq_self.mpr hdbok
  have h2 : arch.dirUnits.filter (fun u => w.dirCopyOk u.setting) = arch.dirUnits :=
    List.filter_eq_self.mpr hdirok
  rw [h1, h2]
  rfl

theorem restore_all_units_witness :
    resolve_archive store0 backup0.archive_path = some archive0 ∧
    (restore store0 world0 backup0 env0 (fullArgs [])).2 =
      .ok ⟨archive0.dbUnits.map (fun u => (u.sourceAlias, dbTarget [] u.sourceAlias)),
           archive0.dirUnits.map (·.setting)⟩ :=
  ⟨rfl,
   restore_all_units store0 world0 backup0 env0 [] archive0 rfl
     (fun _ _ => rfl) (fun _ _ => rfl) (fun _ _ => rfl)⟩

theorem isOk_ok_eq {ε α : Type} (x : α) : (Except.ok x : Except ε α).isOk = true := rfl

theorem isOk_error_eq {ε α : Type} (e : ε) :
    (Except.error e : Except ε α).isOk = false := rfl

/-- Claim C4: when the `db` master switch is `False` no database unit is
restored (connections untouched, nothing reported restored), and when
`files` is `False` no directory unit is restored (filesystem untouched,
nothing reported restored), regardless of `skip_db`, `skip_files` and
`db_names`. -/
theorem master_switches_gate_categories (store : ArchiveStore) (w : World) (b : Backup)
    (env : Env) (args : RestoreArgs) :
    (args.db = false →
      (∀ a, ((restore store w b env args).1).conns a = env.conns a) ∧
      (∀ r, (restore store w b env args).2 = .ok r → r.dbsRestored = [])) ∧
    (args.files = false →
      (∀ p, ((restore store w b env args).1).fs p = env.fs p) ∧
      (∀ r, (restore store w b env args).2 = .ok r → r.dirsRestored = [])) := by
  cases hres : resolve_archive store b.archive_path with
  | none =>
    rw [restore_missing store w b env args hres]
    exact ⟨fun _ => ⟨fun a => rfl, fun r hr => Except.noConfusion hr⟩,
      fun _ => ⟨fun p => rfl, fun r hr => Except.noConfusion hr⟩⟩
  | some arch =>
    constructor
    · intro hdb
      have hsel : selectedDbUnits arch args = [] := by simp [selectedDbUnits, hdb]
      constructor
      · intro a
        rw [restore_conns_eq store w b env args arch hres a, hsel]
        simp [dumpsFor]
      · intro r hr
        rw [restore_snd_eq store w b env args arch hres, hsel] at hr
        split at hr
        · cases hr; rfl
        · exact Except.noConfusion hr
    · intro hf
      have hsel : selectedDirUnits b.config arch args = [] := by
        simp [selectedDirUnits, hf]
      constructor
      · intro p
        rw [restore_fs_eq store w b env args arch hres, hsel]
        rfl
      · intro r hr
        rw [restore_snd_eq store w b env args arch hres, hsel] at hr
        split at hr
        · cases hr; rfl
        · exact Except.noConfusion hr

theorem master_switches_gate_categories_witness :
    ((restore store0 world0 backup0 env0 ⟨false, true, [], [], []⟩).1).conns "default" =
      env0.conns "default" ∧
    ((restore store0 world0 backup0 env0 ⟨true, false, [], [], []⟩).1).fs "media" =
      env0.fs "media" :=
  ⟨((master_switches_gate_categories store0 world0 backup0 env0 _).1 rfl).1 "default",
   ((master_switches_gate_categories store0 world0 backup0 env0 _).2 rfl).1 "media"⟩

/-- The renaming scenario of `test_restore_different_db_name`:
`restore(files=False, skip_db=['secondary', 'dummy'],
db_names={'default': 'dummy'})`. -/
def argsRemap : RestoreArgs :=
  ⟨true, false, ["secondary", "dummy"], [], [("default", "dummy")]⟩

/-- The skip scenario of `test_skip_restore_alias`:
`restore(files=False, skip_db=['secondary'])`. -/
def argsSkip : RestoreArgs := ⟨true, false, ["secondary"], [], []⟩

/-- Claim C2 (counterexample): in the renaming scenario the alias `dummy`
is in `skip_db`, yet its destination connection is modified by the call —
`default`'s dump is restored into it. -/
theorem skip_db_destination_modified :
    "dummy" ∈ argsRemap.skip_db ∧
    env0.conns "dummy" = [] ∧
    ((restore store0 world0 backup0 env0 argsRemap).1).conns "dummy" = ["default.sql"] :=
  ⟨by decide, rfl, rfl⟩

/-- Claim C2 (amended): for every alias `a` in `skip_db`, no unit with
source alias `a` is selected for restore; and provided `a` is not the
resolved `db_names` target of any selected unit, `a`'s destination
connection is left unmodified by the call. -/
theorem skip_db_unit_not_restored (store : ArchiveStore) (w : World) (b : Backup)
    (env : Env) (args : RestoreArgs) (arch : BackupArchive) (a : Alias)
    (h : resolve_archive store b.archive_path = some arch)
    (ha : a ∈ args.skip_db)
    (hnt : ∀ u ∈ selectedDbUnits arch args, dbTarget args.db_names u.sourceAlias ≠ a) :
    (∀ u ∈ selectedDbUnits arch args, u.sourceAlias ≠ a) ∧
    ((restore store w b env args).1).conns a = env.conns a := by
  constructor
  · intro u hu heq
    exact (selectedDbUnits_not_skipped arch args u hu) (heq ▸ ha)
  · rw [restore_conns_eq store w b env args arch h a,
      dumpsFor_eq_nil w args.db_names _ a hnt, List.append_nil]

theorem skip_db_unit_not_restored_witness :
    (∀ u ∈ selectedDbUnits archive0 argsSkip, u.sourceAlias ≠ "secondary") ∧
    ((restore store0 world0 backup0 env0 argsSkip).1).conns "secondary" =
      env0.conns "secondary" :=
  skip_db_unit_not_restored store0 world0 backup0 env0 argsSkip archive0 "secondary"
    rfl (by decide) (by decide)

/-- Claim C3: for an entry `(src, dst)` in `db_names` with `src` selected,
the restore of `src`'s dump unit targets `dst`'s connection (the dump lands
in `dst`'s connection, and nothing about the dump blocks that), while
`src`'s own connection is untouched when no selected unit targets it. -/
theorem db_names_remap_targets_destination (store : ArchiveStore) (w : World) (b : Backup)
    (env : Env) (args : RestoreArgs) (arch : BackupArchive) (u : DatabaseUnit)
    (src dst : Alias)
    (h : resolve_archive store b.archive_path = some arch)
    (hdb : args.db = true)
    (hns : src ∉ args.skip_db)
    (htgt : dbTarget args.db_names src = dst)
    (hu : u ∈ arch.dbUnits) (hsrc : u.sourceAlias = src)
    (hok : w.dbToolOk dst u.dumpPath = true)
    (hnosrc : ∀ v ∈ selectedDbUnits arch args, dbTarget args.db_names v.sourceAlias ≠ src) :
    u.dumpPath ∈ ((restore store w b env args).1).conns dst ∧
    ((restore store w b env args).1).conns src = env.conns src := by
  have hsel : u ∈ selectedDbUnits arch args :=
    mem_selectedDbUnits arch args u hdb hu (hsrc ▸ hns)
  have hunit : dbUnitOk w args.db_names u = true := by
    simp [dbUnitOk, hsrc, htgt, hok]
  constructor
  · rw [restore_conns_eq store w b env args arch h dst]
    refine List.mem_append_right _ ?_
    have hmem := dump_mem_dumpsFor w args.db_names _ u hsel hunit
    rwa [hsrc, htgt] at hmem
  · rw [restore_conns_eq store w b env args arch h src,
      dumpsFor_eq_nil w args.db_names _ src hnosrc, List.append_nil]

theorem db_names_remap_targets_destination_witness :
    ("default.sql" : FsPath) ∈
      ((restore store0 world0 backup0 env0 argsRemap).1).conns "dummy" ∧
    ((restore store0 world0 backup0 env0 argsRemap).1).conns "default" =
      env0.conns "default" :=
  db_names_remap_targets_destination store0 world0 backup0 env0 argsRemap archive0
    ⟨"default", "default.sql"⟩ "default" "dummy" rfl rfl (by decide) rfl
    (by decide) rfl rfl (by decide)

/-- Claim C7: an alias appearing as a `db_names` destination while listed
in `skip_db` is not an error — skip filtering applies to source units
first (so `d`'s own unit is never selected), remapping is then resolved
for the remaining selection (so `src`'s dump lands in `d`'s connection),
and the call still succeeds whenever all selected units succeed. -/
theorem skip_destination_remap_independent (store : ArchiveStore) (w : World) (b : Backup)
    (env : Env) (args : RestoreArgs) (arch : BackupArchive) (u : DatabaseUnit)
    (src d : Alias)
    (h : resolve_archive store b.archive_path = some arch)
    (hdb : args.db = true)
    (hd : d ∈ args.skip_db)
    (hns : src ∉ args.skip_db)
    (htgt : dbTarget args.db_names src = d)
    (hu : u ∈ arch.dbUnits) (hsrc : u.sourceAlias = src)
    (hok : w.dbToolOk d u.dumpPath = true) :
    (∀ v ∈ selectedDbUnits arch args, v.sourceAlias ≠ d) ∧
    u.dumpPath ∈ ((restore store w b env args).1).conns d ∧
    ((∀ v ∈ selectedDbUnits arch args, dbUnitOk w args.db_names v = true) →
     (∀ v ∈ selectedDirUnits b.config arch args, w.dirCopyOk v.setting = true) →
     (restore store w b env args).2.isOk = true) := by
  have hsel : u ∈ selectedDbUnits arch args :=
    mem_selectedDbUnits arch args u hdb hu (hsrc ▸ hns)
  have hunit : dbUnitOk w args.db_names u = true := by
    simp [dbUnitOk, hsrc, htgt, hok]
  refine ⟨?_, ?_, ?_⟩
  · intro v hv heq
    exact (selectedDbUnits_not_skipped arch args v hv) (heq ▸ hd)
  · rw [restore_conns_eq store w b env args arch h d]
    refine List.mem_append_right _ ?_
    have hmem := dump_mem_dumpsFor w args.db_names _ u hsel hunit
    rwa [hsrc, htgt] at hmem
  · intro h1 h2
    exact (restore_isOk_iff store w b env args arch h).mpr ⟨h1, h2⟩

theorem skip_destination_remap_independent_witness :
    (∀ v ∈ selectedDbUnits archive0 argsRemap, v.sourceAlias ≠ "dummy") ∧
    ("default.sql" : FsPath) ∈
      ((restore store0 world0 backup0 env0 argsRemap).1).conns "dummy" ∧
    (restore store0 world0 backup0 env0 argsRemap).2.isOk = true := by
  have h := skip_destination_remap_independent store0 world0 backup0 env0 argsRemap
    archive0 ⟨"default", "default.sql"⟩ "default" "dummy" rfl rfl (by decide)
    (by decide) rfl (by decide) rfl rfl
  exact ⟨h.1, h.2.1, h.2.2 (by decide) (fun v hv => rfl)⟩

/-- A world in which the external restore tool fails for the `secondary`
connection and succeeds everywhere else. -/
def worldFail : World :=
  ⟨fun a _ => a != "secondary", fun _ => true, world0.dirSettings⟩

/-- Claim C5: a `restore` invocation returns successfully iff every
selected unit succeeds (so any failed unit makes the call raise); when it
fails it raises `restoreFailed` identifying exactly the failed units; and
every successful unit's effect is applied regardless of other failures —
all independent units are attempted and none is rolled back. -/
theorem restore_failure_aggregation (store : ArchiveStore) (w : World) (b : Backup)
    (env : Env) (args : RestoreArgs) (arch : BackupArchive)
    (h : resolve_archive store b.archive_path = some arch) :
    ((restore store w b env args).2.isOk = true ↔
      ((∀ u ∈ selectedDbUnits arch args, dbUnitOk w args.db_names u = true) ∧
       (∀ u ∈ selectedDirUnits b.config arch args, w.dirCopyOk u.setting = true))) ∧
    ((restore store w b env args).2.isOk = false →
      (restore store w b env args).2 =
        .error (.restoreFailed
          (dbFailureIds w args.db_names (selectedDbUnits arch args) ++
           dirFailureIds w (selectedDirUnits b.config arch args)))) ∧
    (∀ u ∈ selectedDbUnits arch args, dbUnitOk w args.db_names u = true →
      u.dumpPath ∈
        ((restore store w b env args).1).conns (dbTarget args.db_names u.sourceAlias)) ∧
    (∀ u ∈ selectedDirUnits b.config arch args, w.dirCopyOk u.setting = true →
      (((restore store w b env args).1).fs (w.dirSettings u.setting)).isSome = true) := by
  refine ⟨restore_isOk_iff store w b env args arch h, ?_, ?_, ?_⟩
  · intro hfalse
    rw [restore_snd_eq store w b env args arch h] at hfalse ⊢
    by_cases hc : (dbFailureIds w args.db_names (selectedDbUnits arch args) ++
        dirFailureIds w (selectedDirUnits b.config arch args)).isEmpty = true
    · rw [if_pos hc] at hfalse
      exact Bool.noConfusion ((isOk_ok_eq _).symm.trans hfalse)
    · rw [if_neg hc]
  · intro u hu hok
    rw [restore_conns_eq store w b env args arch h (dbTarget args.db_names u.sourceAlias)]
    exact List.mem_append_right _ (dump_mem_dumpsFor w args.db_names _ u hu hok)
  · intro u hu hok
    rw [restore_fs_eq store w b env args arch h]
    exact applyDirList_mem_isSome w _ env.fs u hu hok

theorem restore_failure_aggregation_witness :
    (((restore store0 worldFail backup0 env0 (fullArgs [])).2.isOk = true ↔
      ((∀ u ∈ selectedDbUnits archive0 (fullArgs []),
          dbUnitOk worldFail [] u = true) ∧
       (∀ u ∈ selectedDirUnits backup0.config archive0 (fullArgs []),
          worldFail.dirCopyOk u.setting = true))) ∧
    ((restore store0 worldFail backup0 env0 (fullArgs [])).2.isOk = false →
      (restore store0 worldFail backup0 env0 (fullArgs [])).2 =
        .error (.restoreFailed
          (dbFailureIds worldFail [] (selectedDbUnits archive0 (fullArgs [])) ++
           dirFailureIds worldFail
             (selectedDirUnits backup0.config archive0 (fullArgs []))))) ∧
    (∀ u ∈ selectedDbUnits archive0 (fullArgs []), dbUnitOk worldFail [] u = true →
      u.dumpPath ∈
        ((restore store0 worldFail backup0 env0 (fullArgs [])).1).conns
          (dbTarget [] u.sourceAlias)) ∧
    (∀ u ∈ selectedDirUnits backup0.config archive0 (fullArgs []),
      worldFail.dirCopyOk u.setting = true →
      (((restore store0 worldFail backup0 env0 (fullArgs [])).1).fs
        (worldFail.dirSettings u.setting)).isSome = true)) ∧
    (restore store0 worldFail backup0 env0 (fullArgs [])).2 =
      .error (.restoreFailed ["secondary"]) ∧
    ((restore store0 worldFail backup0 env0 (fullArgs [])).1).conns "default" =
      ["default.sql"] :=
  ⟨restore_failure_aggregation store0 worldFail backup0 env0 (fullArgs []) archive0 rfl,
   rfl, rfl⟩

/-- Claim C6 (counterexample): the `2018-06-26-daily` snapshot does not
exist in the store, yet `prepare_restore` succeeds instead of raising
`ArchiveNotFound`/`BackupError` at preparation time. -/
theorem prepare_restore_missing_archive_succeeds :
    resolve_archive store0 "2018-06-26-daily" = none ∧
    prepare_restore store0 cfg0 "2018-06-26-daily" =
      .ok ⟨cfg0, "2018-06-26-daily"⟩ :=
  ⟨rfl, rfl⟩

/-- Claim C6 (amended): for a snapshot path that does not exist,
`prepare_restore` returns successfully without checking the path; the
failure surfaces as `BackupError` (`archiveNotFound`) when `restore` is
subsequently called — before any unit is attempted, leaving the
environment untouched. -/
theorem missing_archive_error_at_restore (store : ArchiveStore) (cfg : Config)
    (w : World) (env : Env) (args : RestoreArgs) (p : FsPath)
    (h : resolve_archive store p = none) :
    prepare_restore store cfg p = .ok ⟨cfg, p⟩ ∧
    restore store w ⟨cfg, p⟩ env args = (env, .error (.archiveNotFound p)) :=
  ⟨rfl, restore_missing store w ⟨cfg, p⟩ env args h⟩

theorem missing_archive_error_at_restore_witness :
    prepare_restore store0 cfg0 "2018-06-26-daily" =
      .ok ⟨cfg0, "2018-06-26-daily"⟩ ∧
    restore store0 world0 ⟨cfg0, "2018-06-26-daily"⟩ env0 (fullArgs []) =
      (env0, .error (.archiveNotFound "2018-06-26-daily")) :=
  missing_archive_error_at_restore store0 cfg0 world0 env0 (fullArgs [])
    "2018-06-26-daily" rfl

/-- Claim C10: `prepare_restore` returns a usable `Backup` without raising
even when the given archive snapshot path does not exist; the
missing-archive failure is deferred and surfaces as a `BackupError` only
when `restore()` is subsequently called. -/
theorem prepare_restore_defers_archive_check (store : ArchiveStore) (cfg : Config)
    (w : World) (env : Env) (args : RestoreArgs) (p : FsPath)
    (h : resolve_archive store p = none) :
    ∃ bk : Backup, prepare_restore store cfg p = .ok bk ∧
      (restore store w bk env args).2 = .error (.archiveNotFound p) ∧
      (restore store w bk env args).1 = env := by
  refine ⟨⟨cfg, p⟩, rfl, ?_, ?_⟩
  · rw [restore_missing store w ⟨cfg, p⟩ env args h]
  · rw [restore_missing store w ⟨cfg, p⟩ env args h]

theorem prepare_restore_defers_archive_check_witness :
    ∃ bk : Backup, prepare_restore store0 cfg0 "2018-06-26-daily" = .ok bk ∧
      (restore store0 world0 bk env0 (fullArgs [])).2 =
        .error (.archiveNotFound "2018-06-26-daily") ∧
      (restore store0 world0 bk env0 (fullArgs [])).1 = env0 :=
  prepare_restore_defers_archive_check store0 cfg0 world0 env0 (fullArgs [])
    "2018-06-26-daily" rfl

/-- Claim C8: a directory restore is additive/overwrite, not a mirror —
the destination directory exists afterwards even if it was missing,
relative paths present in the source overwrite the destination's files,
relative paths absent from the source keep the destination's pre-existing
files unchanged, and no other directory is touched. -/
theorem restore_directory_additive (fs : FS) (src : DirTree) (dst : FsPath) :
    ((restore_directory fs src dst) dst).isSome = true ∧
    (∀ p c, src p = some c →
      ((restore_directory fs src dst) dst).getD emptyTree p = some c) ∧
    (∀ p, src p = none →
      ((restore_directory fs src dst) dst).getD emptyTree p =
        ((fs dst).getD emptyTree) p) ∧
    (∀ q, q ≠ dst → restore_directory fs src dst q = fs q) := by
  refine ⟨?_, ?_, ?_, ?_⟩
  · simp [restore_directory]
  · intro p c hp; simp [restore_directory, mergeTree, hp]
  · intro p hp; simp [restore_directory, mergeTree, hp]
  · intro q hq; simp [restore_directory, hq]

/-- A pre-existing destination tree: a file `keep` absent from the archive
and a stale version of the archived file `1`. -/
def keepTree : DirTree :=
  fun p => if p = "keep" then some "kept" else if p = "1" then some "stale" else none

/-- A filesystem in which the destination directory `media` already exists
with `keepTree` as its contents. -/
def fsPre : FS := fun q => if q = "media" then some keepTree else none

theorem restore_directory_additive_witness :
    ((restore_directory fsPre mediaTree "media") "media").isSome = true ∧
    ((restore_directory fsPre mediaTree "media") "media").getD emptyTree "1" =
      some "file1" ∧
    ((restore_directory fsPre mediaTree "media") "media").getD emptyTree "keep" =
      some "kept" ∧
    restore_directory fsPre mediaTree "media" "other" = fsPre "other" := by
  obtain ⟨h1, h2, h3, h4⟩ := restore_directory_additive fsPre mediaTree "media"
  exact ⟨h1, h2 "1" "file1" rfl, (h3 "keep" rfl).trans rfl, h4 "other" (by decide)⟩

/-- Directory-only restore arguments, as in `restore(db=False)`. -/
def filesOnlyArgs : RestoreArgs := ⟨false, true, [], [], []⟩

theorem selectedDirUnits_restricted (cfg : Config) (arch : BackupArchive)
    (ds : List SettingName) (hcfg : cfg.directories = some ds) :
    selectedDirUnits cfg arch filesOnlyArgs =
      arch.dirUnits.filter (fun v => decide (v.setting ∈ ds)) := by
  simp [selectedDirUnits, filesOnlyArgs, dirParticipates, hcfg]

/-- Claim C9: when the configuration's `files.directories` restricts the
participating settings to `ds`, after `restore(db=False)` exactly the
destinations of the listed settings are created and populated with the
archived contents, while destinations of unlisted settings are left
absent. -/
theorem config_directories_restriction (store : ArchiveStore) (w : World) (b : Backup)
    (env : Env) (ds : List SettingName) (arch : BackupArchive)
    (h : resolve_archive store b.archive_path = some arch)
    (hcfg : b.config.directories = some ds)
    (hok : ∀ u ∈ arch.dirUnits, w.dirCopyOk u.setting = true)
    (hfresh : ∀ u ∈ arch.dirUnits, env.fs (w.dirSettings u.setting) = none)
    (hinj : ∀ u ∈ arch.dirUnits, ∀ v ∈ arch.dirUnits,
      w.dirSettings u.setting = w.dirSettings v.setting → u.setting = v.setting)
    (hnodup : (arch.dirUnits.map (·.setting)).Nodup) :
    ∀ u ∈ arch.dirUnits,
      (u.setting ∈ ds →
        ((restore store w b env filesOnlyArgs).1).fs (w.dirSettings u.setting) =
          some u.sourceTree) ∧
      (u.setting ∉ ds →
        ((restore store w b env filesOnlyArgs).1).fs (w.dirSettings u.setting) =
          none) := by
  intro u hu
  rw [restore_fs_eq store w b env filesOnlyArgs arch h,
    selectedDirUnits_restricted b.config arch ds hcfg]
  constructor
  · intro hds
    have husel : u ∈ arch.dirUnits.filter (fun v => decide (v.setting ∈ ds)) :=
      List.mem_filter.mpr ⟨hu, by simp [hds]⟩
    obtain ⟨l1, l2, hdecomp⟩ := List.append_of_mem husel
    have hsubl :
        (arch.dirUnits.filter (fun v => decide (v.setting ∈ ds))).Sublist
          arch.dirUnits :=
      List.filter_sublist _
    have hnodup2 :
        ((arch.dirUnits.filter (fun v => decide (v.setting ∈ ds))).map
          (·.setting)).Nodup :=
      hnodup.sublist (hsubl.map _)
    have hmapdecomp :
        (arch.dirUnits.filter (fun v => decide (v.setting ∈ ds))).map (·.setting) =
          l1.map (·.setting) ++ u.setting :: l2.map (·.setting) := by
      rw [hdecomp]; simp
    rw [hmapdecomp] at hnodup2
    have hn2 := List.nodup_middle.mp hnodup2
    have hnotmem : u.setting ∉ l1.map (·.setting) ++ l2.map (·.setting) :=
      (List.nodup_cons.mp hn2).1
    have hmemarch : ∀ v, v ∈ l1 ∨ v ∈ l2 → v ∈ arch.dirUnits := by
      intro v hv
      have hvf : v ∈ arch.dirUnits.filter (fun x => decide (x.setting ∈ ds)) := by
        rw [hdecomp]
        rcases hv with hv | hv
        · exact List.mem_append.mpr (Or.inl hv)
        · exact List.mem_append.mpr (Or.inr (List.mem_cons_of_mem u hv))
      exact List.mem_of_mem_filter hvf
    have h1 : ∀ v ∈ l1, w.dirSettings v.setting ≠ w.dirSettings u.setting := by
      intro v hv heq
      have hvs : v.setting = u.setting := hinj v (hmemarch v (Or.inl hv)) u hu heq
      exact hnotmem (List.mem_append.mpr
        (Or.inl (List.mem_map.mpr ⟨v, hv, hvs⟩)))
    have h2 : ∀ v ∈ l2, w.dirSettings v.setting ≠ w.dirSettings u.setting := by
      intro v hv heq
      have hvs : v.setting = u.setting := hinj v (hmemarch v (Or.inr hv)) u hu heq
      exact hnotmem (List.mem_append.mpr
        (Or.inr (List.mem_map.mpr ⟨v, hv, hvs⟩)))
    rw [hdecomp, applyDirList_writer w u (hok u hu) l1 l2 env.fs h1 h2,
      hfresh u hu]
    simp [mergeTree_emptyTree]
  · intro hnds
    have huntouched :
        ∀ v ∈ arch.dirUnits.filter (fun v => decide (v.setting ∈ ds)),
          w.dirSettings v.setting ≠ w.dirSettings u.setting := by
      intro v hv heq
      have hvarch := List.mem_of_mem_filter hv
      have hvs : v.setting = u.setting := hinj v hvarch u hu heq
      have hvds : decide (v.setting ∈ ds) = true := (List.mem_filter.mp hv).2
      rw [hvs] at hvds
      exact hnds (of_decide_eq_true hvds)
    rw [applyDirList_untouched w _ env.fs _ huntouched, hfresh u hu]

theorem config_directories_restriction_witness :
    ((restore store0 world0 backupPriv env0 filesOnlyArgs).1).fs
      (world0.dirSettings "PRIVATE_MEDIA_ROOT") = some privateTree ∧
    ((restore store0 world0 backupPriv env0 filesOnlyArgs).1).fs
      (world0.dirSettings "MEDIA_ROOT") = none := by
  have h := config_directories_restriction store0 world0 backupPriv env0
    ["PRIVATE_MEDIA_ROOT"] archive0 rfl rfl (fun _ _ => rfl) (fun _ _ => rfl)
    (by decide) (by decide)
  have hmemP : (⟨"PRIVATE_MEDIA_ROOT", privateTree⟩ : DirectoryUnit) ∈
      archive0.dirUnits :=
    List.mem_cons_of_mem _ (List.mem_cons_self _ _)
  have hmemM : (⟨"MEDIA_ROOT", mediaTree⟩ : DirectoryUnit) ∈ archive0.dirUnits :=
    List.mem_cons_self _ _
  exact ⟨(h ⟨"PRIVATE_MEDIA_ROOT", privateTree⟩ hmemP).1 (by decide),
    (h ⟨"MEDIA_ROOT", mediaTree⟩ hmemM).2 (by decide)⟩
